import Mathlib

/-!
# Verification of the vsinder-api real-time core (src/index.ts)

Shallow embedding of the matching/messaging backend's core state and
request handlers, followed by theorems checking the natural-language
specification against the code.

User identifiers are modelled as `String` (the code uses uuid strings);
timestamps as `Nat` (epoch milliseconds); the relational store as lists
of rows inside a single `ServerState`, mirroring the tables the handlers
touch (`view`, `match`, `message`) plus the process-wide WebSocket
registry `wsUsers`, a log of events delivered over live connections, and
the push-notification queue.
-/

/-- A row of the `view` table: directed edge viewer → target with a
`liked` flag (entity `View`; the `(viewerId, targetId)` pair is unique). -/
structure ViewRow where
  viewerId : String
  targetId : String
  liked : Bool
deriving Repr, DecidableEq

/-- A row of the `match` table (entity `Match`): canonical pair plus
per-side read flags and the `unmatched` flag.  Modelled from the spec:
the `Match` entity file is not under src/; §3 of the spec lists exactly
these columns ("carries independent read1/read2 flags ... and an
active/removed state"). -/
structure MatchRow where
  userId1 : String
  userId2 : String
  read1 : Bool
  read2 : Bool
  unmatched : Bool
deriving Repr, DecidableEq

/-- A row of the `message` table: directed sender → recipient with text
and a `createdAt` timestamp (epoch ms), used for ordering and as the
pagination cursor. -/
structure MessageRow where
  senderId : String
  recipientId : String
  text : String
  createdAt : Nat
deriving Repr, DecidableEq

/-- One entry of the `wsUsers` registry: the connection handle is
abstracted away; `openChatUserId` is the "focused peer" pointer. -/
structure WsEntry where
  openChatUserId : Option String
deriving Repr, DecidableEq

/-- Canonical-order pair returned by `getUserIdOrder`. -/
structure UserIdOrder where
  userId1 : String
  userId2 : String
deriving Repr, DecidableEq

/-- Events sent over a live WebSocket connection (`wsSend` payloads in
src/index.ts: "new-message", "new-match", "unmatch", "new-like"). -/
inductive WsEvent where
  | newMessage (m : MessageRow)
  | newMatch (ids : UserIdOrder)
  | unmatch (userId : String)
  | newLike
deriving Repr, DecidableEq

/-- A job handed to `queuePushNotifToSend`: `{idToSendTo, otherId,
type: "message"|"match", text?}`. -/
structure PushJob where
  idToSendTo : String
  otherId : String
  typ : String
  text : Option String
deriving Repr, DecidableEq

/-- The state the core handlers read and write. -/
structure ServerState where
  views : List ViewRow
  «matches» : List MatchRow
  messages : List MessageRow
  wsUsers : List (String × WsEntry)
  sentWs : List (String × WsEvent)
  pushQueue : List PushJob
deriving Repr, DecidableEq

def emptyState : ServerState :=
  { views := [], «matches» := [], messages := [], wsUsers := [],
    sentWs := [], pushQueue := [] }

/-- Lexicographic strict order on character lists, by code point —
the order JS applies to `id1 < id2` on strings. -/
def charsLt : List Char → List Char → Bool
  | _, [] => false
  | [], _ :: _ => true
  | a :: as, b :: bs =>
    if a.toNat == b.toNat then charsLt as bs
    else decide (a.toNat < b.toNat)

/-- The string comparison `id1 < id2`. -/
def strLt (a b : String) : Bool := charsLt a.data b.data

/-- Modelled from the spec: `getUserIdOrder` lives in src/utils.ts which
is not under src/.  §3: "Match ... stored canonically with
`userId1 < userId2` under an agreed total order". -/
def getUserIdOrder (id1 id2 : String) : UserIdOrder :=
  if strLt id1 id2 then ⟨id1, id2⟩ else ⟨id2, id1⟩

/-- JS membership test `key in wsUsers` on the registry object. -/
def wsHas (key : String) (s : ServerState) : Bool :=
  s.wsUsers.any (fun e => e.1 == key)

/-- Registry lookup `wsUsers[key]`. -/
def wsLookup (key : String) (s : ServerState) : Option WsEntry :=
  (s.wsUsers.find? (fun e => e.1 == key)).map (fun e => e.2)

/-- The helper `wsSend(key, v)`: sends over the live connection when `key` is
registered, silently does nothing otherwise (src/index.ts lines 83-87). -/
def wsSend (key : String) (v : WsEvent) (s : ServerState) : ServerState :=
  if wsHas key s then { s with sentWs := s.sentWs ++ [(key, v)] }
  else s

/-- Registration `wsUsers[userId] = {openChatUserId: null, ws}` — object assignment
replaces any previous entry for the same key. -/
def wsRegister (userId : String) (s : ServerState) : ServerState :=
  { s with wsUsers :=
      (userId, ⟨none⟩) :: s.wsUsers.filter (fun e => !(e.1 == userId)) }

/-- Deregistration `delete wsUsers[userId]` on the close event. -/
def wsUnregister (userId : String) (s : ServerState) : ServerState :=
  { s with wsUsers := s.wsUsers.filter (fun e => !(e.1 == userId)) }

/-- Client "message-open" event: set the focused peer when registered
(src/index.ts lines 923-933). -/
def wsMessageOpen (userId openChatUserId : String) (s : ServerState) :
    ServerState :=
  if wsHas userId s then
    { s with wsUsers := s.wsUsers.map (fun e =>
        if e.1 == userId then (e.1, ⟨some openChatUserId⟩) else e) }
  else s

/-! ## POST /view (src/index.ts lines 752-838) -/

/-- Boolean prefix test on character lists (used for the
`err.message.includes("duplicate key")` check). -/
def charsStartWith : List Char → List Char → Bool
  | [], _ => true
  | _ :: _, [] => false
  | a :: as, b :: bs => a == b && charsStartWith as bs

/-- Boolean infix test on character lists. -/
def charsOccurIn (p : List Char) : List Char → Bool
  | [] => charsStartWith p []
  | b :: bs => charsStartWith p (b :: bs) || charsOccurIn p bs

/-- JS `msg.includes("duplicate key")` (src/index.ts line 791). -/
def includesDuplicateKey (msg : String) : Bool :=
  charsOccurIn "duplicate key".data msg.data

/-- Outcome of an `INSERT` against the store: success or an error
carrying the database error message. -/
inductive InsertResult where
  | ok
  | dbError (msg : String)
deriving Repr, DecidableEq

/-- The message Postgres produces when the unique constraint on
`(viewerId, targetId)` fires. -/
def pgDuplicateKeyMsg : String :=
  "duplicate key value violates unique constraint"

/-- The deterministic store: `View.insert` fails with the duplicate-key
error exactly when a row for `(viewerId, targetId)` already exists
(spec §3: View is "unique per `(viewer, target)` — a duplicate insert
must fail"; the constraint itself lives in the entity/migrations, not
under src/). -/
def viewInsertResult (viewerId targetId : String) (s : ServerState) :
    InsertResult :=
  if s.views.any (fun v => v.viewerId == viewerId && v.targetId == targetId)
  then .dbError pgDuplicateKeyMsg
  else .ok

/-- Response / error outcome of the POST /view handler.  `error` means
the handler re-threw (`throw err`), which the tail middleware turns into
a 500. -/
inductive ViewOutcome where
  | resp (matched ok : Bool)
  | error (msg : String)
deriving Repr, DecidableEq

/-- Row inserted by `Match.insert(getUserIdOrder(...))` — only the pair
is supplied; the remaining columns take the entity defaults (modelled
from the spec, the entity file being absent from src/). -/
def newMatchRow (ids : UserIdOrder) : MatchRow :=
  { userId1 := ids.userId1, userId2 := ids.userId2,
    read1 := false, read2 := false, unmatched := false }

/-- The step `if (!(key in wsUsers)) queuePushNotifToSend(job)`: enqueue the push
job exactly when the recipient has no live connection. -/
def pushIfAbsent (key : String) (j : PushJob) (s : ServerState) :
    ServerState :=
  if wsHas key s then s
  else { s with pushQueue := s.pushQueue ++ [j] }

/-- Body of the POST /view handler after validation, parameterised by
the result of the `View.insert` (src/index.ts lines 765-838).  The
reciprocal `View.findOne` is issued by `Promise.all` together with the
insert, so it observes the pre-insert table.  On a duplicate-key error
the handler answers `{match:false, ok:false}` and returns; on any other
error it re-throws; otherwise it inserts the canonical match row when
the reciprocal liked view exists, answers `{match, ok:true}`, then runs
the ws/push/like side effects. -/
def viewOpWith (insertRes : InsertResult) (reqUserId userId : String)
    (liked : Bool) (s : ServerState) : ViewOutcome × ServerState :=
  match insertRes with
  | .dbError msg =>
    if includesDuplicateKey msg then (.resp false false, s)
    else (.error msg, s)
  | .ok =>
    let fav : Option ViewRow :=
      if liked then
        s.views.find? (fun v =>
          v.viewerId == userId && v.targetId == reqUserId && v.liked)
      else none
    let s1 := { s with views :=
      s.views ++ [⟨reqUserId, userId, liked⟩] }
    match fav with
    | some _ =>
      let ids := getUserIdOrder userId reqUserId
      let s2 := { s1 with «matches» := s1.«matches» ++ [newMatchRow ids] }
      let s3 := wsSend userId (.newMatch ids) s2
      let s4 := wsSend reqUserId (.newMatch ids) s3
      let s5 := pushIfAbsent userId ⟨userId, reqUserId, "match", none⟩ s4
      -- the `if (liked)` tail: matched implies liked
      let s6 := wsSend userId .newLike s5
      (.resp true true, s6)
    | none =>
      let s2 := if liked then wsSend userId .newLike s1 else s1
      (.resp false true, s2)

/-- POST /view against the deterministic store. -/
def viewOp (reqUserId userId : String) (liked : Bool) (s : ServerState) :
    ViewOutcome × ServerState :=
  viewOpWith (viewInsertResult reqUserId userId s) reqUserId userId liked s

/-! ## POST /unmatch (src/index.ts lines 560-586) -/

/-- POST /unmatch body: `Match.delete(getUserIdOrder(req.userId, userId))` then a ws
"unmatch" event to the other party. -/
def unmatchOp (reqUserId userId : String) (s : ServerState) : ServerState :=
  let ids := getUserIdOrder reqUserId userId
  let s1 := { s with «matches» := s.«matches».filter (fun m =>
    !(m.userId1 == ids.userId1 && m.userId2 == ids.userId2)) }
  wsSend userId (.unmatch reqUserId) s1

/-! ## POST /report (src/index.ts lines 588-700) — the parts that touch
match/view state (the Report row and Slack call are external). -/

inductive ReportKind where
  | unmatch
  | reject
deriving Repr, DecidableEq

def reportOp (reqUserId userId : String) (kind : ReportKind)
    (s : ServerState) : ServerState :=
  match kind with
  | .unmatch => unmatchOp reqUserId userId s
  | .reject =>
    -- `await View.insert({viewerId, targetId, liked:false})`; a
    -- duplicate-key failure propagates and leaves state unchanged
    match viewInsertResult reqUserId userId s with
    | .dbError _ => s
    | .ok => { s with views := s.views ++ [⟨reqUserId, userId, false⟩] }

/-! ## POST /message (src/index.ts lines 702-750) -/

/-- The `Match.update({...getUserIdOrder(req.userId, recipientId),
unmatched: false}, {[read-side]: false})` of the /message handler
(src/index.ts lines 734-739): clear the recipient's read flag on the
canonical match row. -/
def markUnread (reqUserId recipientId : String) (rows : List MatchRow) :
    List MatchRow :=
  let ids := getUserIdOrder reqUserId recipientId
  rows.map (fun r =>
    if r.userId1 == ids.userId1 && r.userId2 == ids.userId2 &&
       r.unmatched == false then
      if ids.userId1 == recipientId then { r with read1 := false }
      else { r with read2 := false }
    else r)

/-- POST /message after validation: save the message, fire-and-forget a
ws "new-message" to the recipient, respond, then (a) mark the
recipient's side unread unless the recipient is connected with the chat
open on the sender, and (b) enqueue a push job (100-char preview) when
the recipient has no connection. -/
def messageOp (reqUserId recipientId text : String) (now : Nat)
    (s : ServerState) : ServerState :=
  let m : MessageRow :=
    { senderId := reqUserId, recipientId := recipientId,
      text := text, createdAt := now }
  let s1 := { s with messages := s.messages ++ [m] }
  let s2 := wsSend m.recipientId (.newMessage m) s1
  let notFocused : Bool :=
    match wsLookup m.recipientId s2 with
    | none => true
    | some e => !(e.openChatUserId == some reqUserId)
  let s3 :=
    if notFocused then
      { s2 with «matches» := markUnread reqUserId m.recipientId s2.«matches» }
    else s2
  pushIfAbsent m.recipientId
    ⟨m.recipientId, reqUserId, "message", some (m.text.take 100)⟩ s3

/-! ## GET /messages/:userId/:cursor? (src/index.ts lines 504-558) -/

/-- The WHERE clause pairing the two users, both directions
(src/index.ts lines 522-530). -/
def betweenPair (userId reqUserId : String) (m : MessageRow) : Bool :=
  (m.recipientId == userId && m.senderId == reqUserId) ||
  (m.recipientId == reqUserId && m.senderId == userId)

/-- JS truthiness of the parsed cursor (`if (cursor && ...)` /
`if (!cursor)`): absent or `0` is falsy.  The cursor reaches the
handler as `parseInt` of an optional path segment; we model the
validated value as `Option Nat`. -/
def cursorTruthy : Option Nat → Bool
  | none => false
  | some c => !(c == 0)

/-- The row filter of the query: both-directions pair match, plus
`createdAt < cursor` only when the cursor is truthy. -/
def messageFilter (userId reqUserId : String) (cursor : Option Nat)
    (m : MessageRow) : Bool :=
  betweenPair userId reqUserId m &&
  (match cursor with
   | some c => if c == 0 then true else decide (m.createdAt < c)
   | none => true)

/-- The `createdAt DESC` ordering relation used to model
`orderBy("createdAt", "DESC")`. -/
def createdAtDesc (a b : MessageRow) : Prop :=
  b.createdAt ≤ a.createdAt

instance : DecidableRel createdAtDesc := fun a b =>
  inferInstanceAs (Decidable (b.createdAt ≤ a.createdAt))

instance : IsTotal MessageRow createdAtDesc :=
  ⟨fun a b => Nat.le_total b.createdAt a.createdAt⟩

instance : IsTrans MessageRow createdAtDesc :=
  ⟨fun _ _ _ h1 h2 => Nat.le_trans h2 h1⟩

/-- The 21-row page produced by the query builder (`take(21)` on the
filtered, descending-ordered table). -/
def messagesQuery (reqUserId userId : String) (cursor : Option Nat)
    (s : ServerState) : List MessageRow :=
  ((s.messages.filter (messageFilter userId reqUserId cursor)).insertionSort
    createdAtDesc).take 21

/-- Response body `{messages, hasMore}`. -/
structure GetMessagesResponse where
  messages : List MessageRow
  hasMore : Bool
deriving Repr, DecidableEq

/-- The `update(Match).set({[read-side]: true})` of the /messages
handler (src/index.ts lines 547-556): set the fetching user's read flag
on the canonical match row to `true`. -/
def markRead (userId reqUserId : String) (rows : List MatchRow) :
    List MatchRow :=
  let ids := getUserIdOrder userId reqUserId
  rows.map (fun r =>
    if r.userId1 == ids.userId1 && r.userId2 == ids.userId2 then
      if ids.userId1 == reqUserId then { r with read1 := true }
      else { r with read2 := true }
    else r)

/-- GET /messages/:userId/:cursor? — sends `messages.slice(0, 20)` and
`hasMore := messages.length === 21`, records the open chat in the
registry, and, when the cursor is falsy, marks the conversation read. -/
def messagesGetOp (reqUserId userId : String) (cursor : Option Nat)
    (s : ServerState) : GetMessagesResponse × ServerState :=
  let q := messagesQuery reqUserId userId cursor s
  let resp : GetMessagesResponse :=
    { messages := q.take 20, hasMore := q.length == 21 }
  let s1 :=
    if wsHas reqUserId s then
      { s with wsUsers := s.wsUsers.map (fun e =>
          if e.1 == reqUserId then (e.1, ⟨some userId⟩) else e) }
    else s
  let s2 :=
    if cursorTruthy cursor then s1
    else { s1 with «matches» := markRead userId reqUserId s1.«matches» }
  (resp, s2)

/-! ## WebSocket upgrade authentication (src/index.ts lines 940-985) -/

/-- A query-string value as produced by `url.parse(..., true)`: a
string or an array of strings (repeated parameter). -/
inductive QueryVal where
  | str (s : String)
  | strs (l : List String)
deriving Repr, DecidableEq

/-- Payload of a verified JWT: both tokens embed `userId`; the refresh
token also embeds `tokenVersion`. -/
structure TokenPayload where
  userId : String
  tokenVersion : Nat
deriving Repr, DecidableEq

/-- The columns of the `user` table the upgrade handler consults. -/
structure UserRow where
  id : String
  tokenVersion : Nat
deriving Repr, DecidableEq

inductive UpgradeResult where
  | accept (userId : String)
  | reject
deriving Repr, DecidableEq

/-- The guard `!accessToken || !refreshToken || typeof accessToken !==
"string" || typeof refreshToken !== "string"`: the parameter passes only
when it is a non-empty string (a missing value, an array value and the
empty string are all rejected). -/
def tokenParamOk : Option QueryVal → Bool
  | some (.str s) => !(s == "")
  | _ => false

/-- The `server.on("upgrade")` decision (src/index.ts lines 940-985).
`verifyAccess`/`verifyRefresh` abstract `jsonwebtoken.verify` against
the two secrets (`none` = verification threw: bad signature or expired);
`findUser` abstracts `User.findOne`.  Verbatim control flow: accept on a
verified access token; else verify the refresh token, require the user
to exist with a matching stored `tokenVersion`; otherwise respond 401
and destroy the socket before any upgrade. -/
def upgradeDecision (accessToken refreshToken : Option QueryVal)
    (verifyAccess verifyRefresh : String → Option TokenPayload)
    (findUser : String → Option UserRow) : UpgradeResult :=
  match accessToken, refreshToken with
  | some (.str a), some (.str r) =>
    if a == "" || r == "" then .reject
    else
      match verifyAccess a with
      | some d => .accept d.userId
      | none =>
        match verifyRefresh r with
        | some d =>
          match findUser d.userId with
          | some u =>
            if u.tokenVersion == d.tokenVersion then .accept d.userId
            else .reject
          | none => .reject
        | none => .reject
  | _, _ => .reject

/-- The `wss.on("connection")` handler: a falsy userId is terminated
before registration; otherwise the user is registered with no focused
peer (src/index.ts lines 914-921). -/
def wssConnection (userId : String) (s : ServerState) : ServerState :=
  if userId == "" then s else wsRegister userId s

/-- Full upgrade processing: only an accepted handshake reaches
`handleUpgrade`/`emit("connection")`; a rejected one leaves the server
state (in particular the registry) untouched. -/
def processUpgrade (accessToken refreshToken : Option QueryVal)
    (verifyAccess verifyRefresh : String → Option TokenPayload)
    (findUser : String → Option UserRow) (s : ServerState) : ServerState :=
  match upgradeDecision accessToken refreshToken verifyAccess verifyRefresh
      findUser with
  | .accept uid => wssConnection uid s
  | .reject => s

/-! ## Rate Limiter Gateway (src/index.ts lines 51, 71-75 and the
per-route `RateLimiterRedis` options) -/

def SECONDS_IN_A_DAY : Nat := 86400

/-- The `IRateLimiterStoreOptions` fields the routes set. -/
structure RateLimitOpts where
  points : Nat
  duration : Nat
  blockDuration : Nat
  keyPrefix : String
deriving Repr, DecidableEq

/-- The shared `defaultRateLimitOpts` supplies `blockDuration: SECONDS_IN_A_DAY`
(src/index.ts lines 71-75). -/
def defaultBlockDuration : Nat := SECONDS_IN_A_DAY

/-- Limiter of POST /view (src/index.ts lines 755-762): the swipe quota.
It overrides the default block duration with `blockDuration: 0`. -/
def viewRateLimitOpts : RateLimitOpts :=
  { points := 100, duration := SECONDS_IN_A_DAY, blockDuration := 0,
    keyPrefix := "rl/view/" }

/-- Limiter of POST /message (src/index.ts lines 705-711). -/
def messageRateLimitOpts : RateLimitOpts :=
  { points := 1000, duration := SECONDS_IN_A_DAY,
    blockDuration := defaultBlockDuration, keyPrefix := "rl/message/" }

/-- Limiter of GET /feed (src/index.ts lines 359-365). -/
def feedRateLimitOpts : RateLimitOpts :=
  { points := 500, duration := SECONDS_IN_A_DAY,
    blockDuration := defaultBlockDuration, keyPrefix := "rl/feed/" }

/-- Modelled from the spec: the shared counter store behind
`RateLimiterRedis` and `rateLimitMiddleware` (src/rateLimitMiddleware.ts
is not under src/).  §4.3: each `(actor, actionKey)` "consumes one point
against a fixed capacity over a fixed rolling window"; on exhaustion the
attempt is rejected, and a declared block duration imposes a lockout
until it elapses.  One entry per `(actionKey, actor)`: the timestamps of
admitted consumptions plus the lockout deadline. -/
structure LimiterEntry where
  stamps : List Nat
  blockedUntil : Nat
deriving Repr, DecidableEq

/-- Number of points consumed inside the rolling window ending at
`now`. -/
def activeCount (duration now : Nat) (stamps : List Nat) : Nat :=
  (stamps.filter (fun t => decide (now < t + duration))).length

/-- One consumption attempt against a single entry: rejected while the
lockout holds or the window's capacity is exhausted (a rejection renews
the lockout to `now + blockDuration`); otherwise admitted, recording the
point. -/
def consumeEntry (opts : RateLimitOpts) (now : Nat) (e : LimiterEntry) :
    Bool × LimiterEntry :=
  if now < e.blockedUntil then (false, e)
  else if opts.points ≤ activeCount opts.duration now e.stamps then
    (false, { e with blockedUntil := now + opts.blockDuration })
  else
    (true, { e with stamps := e.stamps ++ [now] })

/-- The whole counter store: one entry per `(actionKey, actor)` key —
quotas are namespaced by action key and never share counters. -/
def LimiterState : Type := List ((String × String) × LimiterEntry)

def emptyLimiterEntry : LimiterEntry := { stamps := [], blockedUntil := 0 }

def getEntry (k : String × String) (st : LimiterState) : LimiterEntry :=
  ((st.find? (fun e => e.1 == k)).map (fun e => e.2)).getD emptyLimiterEntry

def setEntry (k : String × String) (v : LimiterEntry) (st : LimiterState) :
    LimiterState :=
  (k, v) :: st.filter (fun e => !(e.1 == k))

/-- One `rateLimiter.consume(req.userId)` call: admit/reject for `actor` under
the route's options, updating only that `(actionKey, actor)` entry. -/
def consume (opts : RateLimitOpts) (actor : String) (now : Nat)
    (st : LimiterState) : Bool × LimiterState :=
  let k := (opts.keyPrefix, actor)
  let (adm, e') := consumeEntry opts now (getEntry k st)
  (adm, setEntry k e' st)

/-! ## Operation traces and reachability -/

/-- One inbound event of the core (authenticated request or socket
event), carrying the already-validated inputs. -/
inductive Op where
  | view (reqUserId userId : String) (liked : Bool)
  | unmatch (reqUserId userId : String)
  | report (reqUserId userId : String) (kind : ReportKind)
  | message (reqUserId recipientId text : String) (now : Nat)
  | getMessages (reqUserId userId : String) (cursor : Option Nat)
  | connect (userId : String)
  | messageOpen (userId openChatUserId : String)
  | disconnect (userId : String)
deriving Repr, DecidableEq

/-- State transition of one event (responses discarded). -/
def step (s : ServerState) (op : Op) : ServerState :=
  match op with
  | .view reqUserId userId liked => (viewOp reqUserId userId liked s).2
  | .unmatch reqUserId userId => unmatchOp reqUserId userId s
  | .report reqUserId userId kind => reportOp reqUserId userId kind s
  | .message reqUserId recipientId text now =>
    messageOp reqUserId recipientId text now s
  | .getMessages reqUserId userId cursor =>
    (messagesGetOp reqUserId userId cursor s).2
  | .connect userId => wssConnection userId s
  | .messageOpen userId openChatUserId =>
    wsMessageOpen userId openChatUserId s
  | .disconnect userId => wsUnregister userId s

def run (s : ServerState) (ops : List Op) : ServerState :=
  ops.foldl step s

/-- The states of the core reachable from a fresh server. -/
def Reachable (s : ServerState) : Prop :=
  ∃ ops : List Op, run emptyState ops = s

/-- The match rows stored for the unordered pair `{a, b}`. -/
def matchesForPair (a b : String) (s : ServerState) : List MatchRow :=
  s.«matches».filter (fun m =>
    (m.userId1 == a && m.userId2 == b) || (m.userId1 == b && m.userId2 == a))

/-- Whether `View(viewer → target, liked = true)` exists among `l`. -/
def likedViewIn (viewer target : String) (l : List ViewRow) : Bool :=
  l.any (fun v => v.viewerId == viewer && v.targetId == target && v.liked)

def hasLikedView (viewer target : String) (s : ServerState) : Bool :=
  likedViewIn viewer target s.views

/-- A match row for the unordered pair `{a, b}` exists. -/
def matchExists (a b : String) (s : ServerState) : Bool :=
  s.«matches».any (fun m =>
    (m.userId1 == a && m.userId2 == b) || (m.userId1 == b && m.userId2 == a))

/-- The forward half of the spec's §3 invariant: every stored match row
is backed by liked views in both directions. -/
def MatchViewInv (s : ServerState) : Prop :=
  ∀ m ∈ s.«matches», hasLikedView m.userId1 m.userId2 s = true ∧
    hasLikedView m.userId2 m.userId1 s = true

/-- The full §3 biconditional, per distinct pair. -/
def IffInv (s : ServerState) : Prop :=
  ∀ A B : String, A ≠ B →
    (matchExists A B s = true ↔
      hasLikedView A B s = true ∧ hasLikedView B A s = true)

/-- Runs of POST /view alone (the claim's like/dislike actions). -/
def runViews (s : ServerState)
    (acts : List (String × String × Bool)) : ServerState :=
  acts.foldl (fun st a => (viewOp a.1 a.2.1 a.2.2 st).2) s

/-! ## Order lemmas for the canonical pair -/

theorem charsLt_irrefl : ∀ l : List Char, charsLt l l = false
  | [] => rfl
  | a :: as => by simp [charsLt, charsLt_irrefl as]

theorem charsLt_asymm : ∀ {x y : List Char},
    charsLt x y = true → charsLt y x = false
  | [], [], h => by simp [charsLt] at h
  | [], _ :: _, _ => rfl
  | _ :: _, [], h => by simp [charsLt] at h
  | a :: as, b :: bs, h => by
    simp only [charsLt] at h ⊢
    by_cases hab : a.toNat = b.toNat
    · simp [hab] at h ⊢
      exact charsLt_asymm h
    · simp [hab, Ne.symm hab] at h ⊢
      omega

theorem charsLt_total : ∀ {x y : List Char}, x ≠ y →
    charsLt x y = true ∨ charsLt y x = true
  | [], [], h => absurd rfl h
  | [], _ :: _, _ => Or.inl rfl
  | _ :: _, [], _ => Or.inr rfl
  | a :: as, b :: bs, h => by
    simp only [charsLt]
    by_cases hab : a.toNat = b.toNat
    · have hab' : a = b := by
        unfold Char.toNat at hab
        exact Char.eq_of_val_eq (UInt32.toNat.inj hab)
      subst hab'
      have : as ≠ bs := fun hh => h (by rw [hh])
      simpa [hab] using charsLt_total this
    · simp [hab, Ne.symm hab]

theorem strLt_asymm {a b : String} (h : strLt a b = true) :
    strLt b a = false := charsLt_asymm h

theorem strLt_total {a b : String} (h : a ≠ b) :
    strLt a b = true ∨ strLt b a = true :=
  charsLt_total (fun hd => h (String.ext hd))

theorem strLt_irrefl (a : String) : strLt a a = false := charsLt_irrefl a.data

/-- The function `getUserIdOrder` is symmetric in its arguments. -/
theorem getUserIdOrder_comm {a b : String} (h : a ≠ b) :
    getUserIdOrder a b = getUserIdOrder b a := by
  unfold getUserIdOrder
  rcases strLt_total h with h1 | h1
  · simp [h1, strLt_asymm h1]
  · simp [h1, strLt_asymm h1]

/-- On distinct ids `getUserIdOrder` returns a strictly ordered pair. -/
theorem getUserIdOrder_lt {a b : String} (h : a ≠ b) :
    strLt (getUserIdOrder a b).userId1 (getUserIdOrder a b).userId2 = true := by
  unfold getUserIdOrder
  rcases strLt_total h with h1 | h1
  · simp [h1]
  · rcases hc : strLt a b with _ | _
    · simp [hc, h1]
    · simp [hc]

/-- The canonical pair is one of the two argument orders. -/
theorem getUserIdOrder_cases (a b : String) :
    getUserIdOrder a b = ⟨a, b⟩ ∨ getUserIdOrder a b = ⟨b, a⟩ := by
  unfold getUserIdOrder
  rcases hc : strLt a b with _ | _ <;> simp [hc]

/-! ## Limiter store lemmas -/

theorem getEntry_setEntry_same (k : String × String) (v : LimiterEntry)
    (st : LimiterState) : getEntry k (setEntry k v st) = v := by
  simp [getEntry, setEntry, List.find?_cons]

theorem find?_key_filter_ne {k k' : String × String} (st : LimiterState)
    (h : k ≠ k') :
    (st.filter (fun e => !(e.1 == k'))).find? (fun e => e.1 == k) =
      st.find? (fun e => e.1 == k) := by
  induction st with
  | nil => rfl
  | cons a st ih =>
    rcases hk' : (a.1 == k') with _ | _
    · rcases hk : (a.1 == k) with _ | _
      · simp [List.filter_cons, hk', List.find?_cons, hk, ih]
      · simp [List.filter_cons, hk', List.find?_cons, hk]
    · have hk : (a.1 == k) = false := by
        simp only [beq_iff_eq] at hk'
        simp only [beq_eq_false_iff_ne, ne_eq, hk']
        exact fun hh => h hh.symm
      simp [List.filter_cons, hk', List.find?_cons, hk, ih]

theorem getEntry_setEntry_ne {k k' : String × String} (v : LimiterEntry)
    (st : LimiterState) (h : k ≠ k') :
    getEntry k (setEntry k' v st) = getEntry k st := by
  have hbeq : (k' == k) = false := by
    simp only [beq_eq_false_iff_ne, ne_eq]
    exact fun hh => h hh.symm
  simp only [getEntry, setEntry, List.find?_cons, hbeq,
    find?_key_filter_ne st h]

/-! ## Claim C8 — swipe-action quota -/

/-- C8 counterexample: the claim says the swipe quota "declares a block
duration longer than its window", but the POST /view limiter explicitly
overrides the default with `blockDuration: 0`, which is not longer than
its 86400-second window (src/index.ts line 760). -/
theorem C8_counterexample :
    viewRateLimitOpts.blockDuration = 0 ∧
    viewRateLimitOpts.duration = 86400 ∧
    ¬ viewRateLimitOpts.duration < viewRateLimitOpts.blockDuration := by
  decide

/-- C8 (amended): the swipe quota declares `blockDuration: 0`,
overriding the 24-hour default block used by the other actions, so a
violation imposes no lockout beyond the rolling window itself: once the
100-point capacity is consumed within the window, further swipe
attempts by that actor are rejected until the window elapses, after
which they are admitted again; the quotas of a different actor or of a
different action key are untouched. -/
theorem C8_amended (st : LimiterState) (A B : String) (now : Nat)
    (hA : viewRateLimitOpts.points ≤ activeCount viewRateLimitOpts.duration
      now (getEntry ("rl/view/", A) st).stamps)
    (hblk : (getEntry ("rl/view/", A) st).blockedUntil ≤ now)
    (hAB : A ≠ B)
    (hB : getEntry ("rl/view/", B) st = emptyLimiterEntry) :
    (consume viewRateLimitOpts A now st).1 = false ∧
    (getEntry ("rl/view/", A) (consume viewRateLimitOpts A now st).2).blockedUntil
      = now + 0 ∧
    getEntry ("rl/view/", B) (consume viewRateLimitOpts A now st).2
      = getEntry ("rl/view/", B) st ∧
    getEntry ("rl/message/", A) (consume viewRateLimitOpts A now st).2
      = getEntry ("rl/message/", A) st ∧
    (consume viewRateLimitOpts B now st).1 = true ∧
    (∀ later : Nat, now ≤ later →
      activeCount viewRateLimitOpts.duration later
        (getEntry ("rl/view/", A) st).stamps = 0 →
      (consume viewRateLimitOpts A later
        (consume viewRateLimitOpts A now st).2).1 = true) := by
  have hA' : 100 ≤ activeCount SECONDS_IN_A_DAY now
      (getEntry ("rl/view/", A) st).stamps := hA
  have hnotblk : ¬ now < (getEntry ("rl/view/", A) st).blockedUntil :=
    Nat.not_lt.mpr hblk
  have hkey : (("rl/view/", B) : String × String) ≠ ("rl/view/", A) := by
    simp only [ne_eq, Prod.mk.injEq, not_and]
    exact fun _ hh => hAB hh.symm
  have hkey2 : (("rl/message/", A) : String × String) ≠ ("rl/view/", A) := by
    simp [Prod.mk.injEq]
  refine ⟨?_, ?_, ?_, ?_, ?_, ?_⟩
  · simp [consume, consumeEntry, viewRateLimitOpts, hnotblk, hA']
  · simp [consume, consumeEntry, viewRateLimitOpts, hnotblk, hA',
      getEntry_setEntry_same]
  · simp only [consume, viewRateLimitOpts]
    exact getEntry_setEntry_ne _ _ hkey
  · simp only [consume, viewRateLimitOpts]
    exact getEntry_setEntry_ne _ _ hkey2
  · simp [consume, consumeEntry, viewRateLimitOpts, hB, emptyLimiterEntry,
      activeCount]
  · intro later hlater hexp
    have hexp' : activeCount SECONDS_IN_A_DAY later
        (getEntry ("rl/view/", A) st).stamps = 0 := hexp
    have hnl : ¬ later < now := Nat.not_lt.mpr hlater
    simp [consume, consumeEntry, viewRateLimitOpts, hnotblk, hA',
      getEntry_setEntry_same, hnl, hexp']

/-- C8 witness: a concrete saturated swipe quota. -/
theorem C8_witness :
    (consume viewRateLimitOpts "alice" 6
      [(("rl/view/", "alice"), ⟨List.replicate 100 5, 0⟩)]).1 = false ∧
    (consume viewRateLimitOpts "bob" 6
      [(("rl/view/", "alice"), ⟨List.replicate 100 5, 0⟩)]).1 = true := by
  have h := C8_amended [(("rl/view/", "alice"), ⟨List.replicate 100 5, 0⟩)]
    "alice" "bob" 6 (by decide) (by decide) (by decide) (by decide)
  exact ⟨h.1, h.2.2.2.2.1⟩

/-! ## Claims C4 and C5 — handshake authentication -/

/-- C4: when the access credential fails verification but the refresh
credential verifies, the referenced user exists, and the stored
`tokenVersion` equals the credential's embedded one, the handshake is
accepted and the connection is bound to the refresh credential's
subject id (src/index.ts lines 962-981). -/
theorem C4_refresh_handshake_accepts
    (a r : String) (d : TokenPayload) (u : UserRow)
    (verifyAccess verifyRefresh : String → Option TokenPayload)
    (findUser : String → Option UserRow)
    (ha : (a == "") = false) (hr : (r == "") = false)
    (hva : verifyAccess a = none)
    (hvr : verifyRefresh r = some d)
    (hfu : findUser d.userId = some u)
    (htv : u.tokenVersion = d.tokenVersion) :
    upgradeDecision (some (.str a)) (some (.str r))
        verifyAccess verifyRefresh findUser = .accept d.userId ∧
    ∀ s, processUpgrade (some (.str a)) (some (.str r))
        verifyAccess verifyRefresh findUser s = wssConnection d.userId s := by
  have hdec : upgradeDecision (some (.str a)) (some (.str r))
      verifyAccess verifyRefresh findUser = .accept d.userId := by
    simp [upgradeDecision, ha, hr, hva, hvr, hfu, htv]
  exact ⟨hdec, fun s => by simp [processUpgrade, hdec]⟩

theorem C4_witness :
    upgradeDecision (some (.str "at")) (some (.str "rt"))
      (fun _ => none) (fun _ => some ⟨"u1", 3⟩)
      (fun i => if i == "u1" then some ⟨"u1", 3⟩ else none)
      = .accept "u1" :=
  (C4_refresh_handshake_accepts "at" "rt" ⟨"u1", 3⟩ ⟨"u1", 3⟩
    (fun _ => none) (fun _ => some ⟨"u1", 3⟩)
    (fun i => if i == "u1" then some ⟨"u1", 3⟩ else none)
    (by decide) (by decide) rfl rfl (by decide) rfl).1

/-- C5: every failing connection-upgrade attempt — a missing, non-string
or empty credential parameter, neither credential verifying, or a
verified refresh credential whose user is gone or whose embedded
`tokenVersion` differs from the stored one — is rejected, and a rejected
upgrade leaves the server state (in particular the connection registry)
completely unchanged, so no unauthenticated channel is ever registered
(src/index.ts lines 940-985). -/
theorem C5_failed_handshake_rejects
    (accessToken refreshToken : Option QueryVal)
    (verifyAccess verifyRefresh : String → Option TokenPayload)
    (findUser : String → Option UserRow)
    (hfail :
      tokenParamOk accessToken = false ∨
      tokenParamOk refreshToken = false ∨
      ∀ a r, accessToken = some (.str a) → refreshToken = some (.str r) →
        verifyAccess a = none ∧
        (verifyRefresh r = none ∨
          ∃ d, verifyRefresh r = some d ∧
            (findUser d.userId = none ∨
              ∃ u, findUser d.userId = some u ∧
                u.tokenVersion ≠ d.tokenVersion))) :
    upgradeDecision accessToken refreshToken
        verifyAccess verifyRefresh findUser = .reject ∧
    ∀ s, processUpgrade accessToken refreshToken
        verifyAccess verifyRefresh findUser s = s := by
  have hdec : upgradeDecision accessToken refreshToken
      verifyAccess verifyRefresh findUser = .reject := by
    match accessToken, refreshToken with
    | none, _ => rfl
    | some (.strs _), _ => rfl
    | some (.str _), none => rfl
    | some (.str _), some (.strs _) => rfl
    | some (.str a), some (.str r) =>
      rcases hfail with hfa | hfr | hcase
      · simp only [tokenParamOk, Bool.not_eq_false'] at hfa
        simp [upgradeDecision, hfa]
      · simp only [tokenParamOk, Bool.not_eq_false'] at hfr
        simp [upgradeDecision, hfr]
      · obtain ⟨hva, hrest⟩ := hcase a r rfl rfl
        rcases hrest with hvr | ⟨d, hvr, hfu⟩
        · by_cases hae : a = ""
          · simp [upgradeDecision, hae]
          · by_cases hre : r = ""
            · simp [upgradeDecision, hre]
            · simp [upgradeDecision, hae, hre, hva, hvr]
        · rcases hfu with hfu | ⟨u, hfu, htv⟩
          · by_cases hae : a = ""
            · simp [upgradeDecision, hae]
            · by_cases hre : r = ""
              · simp [upgradeDecision, hre]
              · simp [upgradeDecision, hae, hre, hva, hvr, hfu]
          · by_cases hae : a = ""
            · simp [upgradeDecision, hae]
            · by_cases hre : r = ""
              · simp [upgradeDecision, hre]
              · simp [upgradeDecision, hae, hre, hva, hvr, hfu, htv]
  exact ⟨hdec, fun s => by simp [processUpgrade, hdec]⟩

theorem C5_witness :
    upgradeDecision (some (.str "at")) (some (.str "rt"))
      (fun _ => none) (fun _ => some ⟨"u1", 3⟩)
      (fun _ => some ⟨"u1", 7⟩) = .reject ∧
    upgradeDecision none (some (.str "rt"))
      (fun _ => none) (fun _ => some ⟨"u1", 3⟩)
      (fun _ => some ⟨"u1", 3⟩) = .reject := by
  constructor
  · exact (C5_failed_handshake_rejects (some (.str "at")) (some (.str "rt"))
      (fun _ => none) (fun _ => some ⟨"u1", 3⟩) (fun _ => some ⟨"u1", 7⟩)
      (Or.inr (Or.inr (fun a r _ _ =>
        ⟨rfl, Or.inr ⟨⟨"u1", 3⟩, rfl,
          Or.inr ⟨⟨"u1", 7⟩, rfl, by decide⟩⟩⟩)))).1
  · exact (C5_failed_handshake_rejects none (some (.str "rt"))
      (fun _ => none) (fun _ => some ⟨"u1", 3⟩) (fun _ => some ⟨"u1", 3⟩)
      (Or.inl rfl)).1

/-! ## State-component lemmas -/

@[simp] theorem wsSend_views (k : String) (v : WsEvent) (s : ServerState) :
    (wsSend k v s).views = s.views := by
  unfold wsSend; split <;> rfl

@[simp] theorem wsSend_matches (k : String) (v : WsEvent) (s : ServerState) :
    (wsSend k v s).«matches» = s.«matches» := by
  unfold wsSend; split <;> rfl

@[simp] theorem wsSend_messages (k : String) (v : WsEvent) (s : ServerState) :
    (wsSend k v s).messages = s.messages := by
  unfold wsSend; split <;> rfl

@[simp] theorem wsSend_wsUsers (k : String) (v : WsEvent) (s : ServerState) :
    (wsSend k v s).wsUsers = s.wsUsers := by
  unfold wsSend; split <;> rfl

@[simp] theorem wsSend_pushQueue (k : String) (v : WsEvent) (s : ServerState) :
    (wsSend k v s).pushQueue = s.pushQueue := by
  unfold wsSend; split <;> rfl

/-! ## Claim C2 — duplicate like/dislike -/

/-- C2: a repeated like/dislike on the same `(actor, target)` pair makes
the insert fail on the uniqueness constraint; the handler answers
`{match:false, ok:false}` and changes nothing (in particular no second
View row and no match), while a database failure whose message is not a
duplicate-key violation is re-thrown instead (src/index.ts lines
773-800). -/
theorem C2_duplicate_action (reqUserId userId : String) (liked : Bool)
    (s : ServerState)
    (hdup : s.views.any (fun v =>
      v.viewerId == reqUserId && v.targetId == userId) = true) :
    viewOp reqUserId userId liked s = (.resp false false, s) ∧
    ∀ (msg r2 u2 : String) (l2 : Bool) (s2 : ServerState),
      includesDuplicateKey msg = false →
      viewOpWith (.dbError msg) r2 u2 l2 s2 = (.error msg, s2) := by
  have hmsg : includesDuplicateKey pgDuplicateKeyMsg = true := by decide
  constructor
  · simp [viewOp, viewInsertResult, hdup, viewOpWith, hmsg]
  · intro msg r2 u2 l2 s2 hnot
    simp [viewOpWith, hnot]

theorem C2_witness :
    viewOp "a" "b" true { emptyState with views := [⟨"a", "b", true⟩] } =
      (.resp false false,
        { emptyState with views := [⟨"a", "b", true⟩] }) :=
  (C2_duplicate_action "a" "b" true
    { emptyState with views := [⟨"a", "b", true⟩] } (by decide)).1

/-! ## Claim C1 — mutual like creates exactly one canonical match -/

@[simp] theorem pushIfAbsent_views (k : String) (j : PushJob)
    (s : ServerState) : (pushIfAbsent k j s).views = s.views := by
  unfold pushIfAbsent; split <;> rfl

@[simp] theorem pushIfAbsent_matches (k : String) (j : PushJob)
    (s : ServerState) : (pushIfAbsent k j s).«matches» = s.«matches» := by
  unfold pushIfAbsent; split <;> rfl

@[simp] theorem pushIfAbsent_messages (k : String) (j : PushJob)
    (s : ServerState) : (pushIfAbsent k j s).messages = s.messages := by
  unfold pushIfAbsent; split <;> rfl

@[simp] theorem pushIfAbsent_wsUsers (k : String) (j : PushJob)
    (s : ServerState) : (pushIfAbsent k j s).wsUsers = s.wsUsers := by
  unfold pushIfAbsent; split <;> rfl

@[simp] theorem pushIfAbsent_sentWs (k : String) (j : PushJob)
    (s : ServerState) : (pushIfAbsent k j s).sentWs = s.sentWs := by
  unfold pushIfAbsent; split <;> rfl

/-- C1: starting from any state with no view in either direction and no
match between distinct users A and B, "A likes B" then "B likes A"
produces: no match and `{match:false, ok:true}` for the first like,
`{match:true, ok:true}` for the second, and exactly one match row for
the pair, stored in canonical order (`userId1 < userId2`).  Because A
and B are universally quantified the same holds with the two requests
swapped, so the match is created only by whichever like completes
second (src/index.ts lines 773-811). -/
theorem C1_mutual_like_single_match (A B : String) (s0 : ServerState)
    (hAB : A ≠ B)
    (hv : ∀ v ∈ s0.views,
      ¬((v.viewerId = A ∧ v.targetId = B) ∨ (v.viewerId = B ∧ v.targetId = A)))
    (hm : matchesForPair A B s0 = []) :
    (viewOp A B true s0).1 = .resp false true ∧
    matchesForPair A B (viewOp A B true s0).2 = [] ∧
    (viewOp B A true (viewOp A B true s0).2).1 = .resp true true ∧
    matchesForPair A B (viewOp B A true (viewOp A B true s0).2).2 =
      [newMatchRow (getUserIdOrder A B)] ∧
    strLt (getUserIdOrder A B).userId1 (getUserIdOrder A B).userId2 = true := by
  have hne : (A == B) = false := by
    simp only [beq_eq_false_iff_ne, ne_eq]; exact hAB
  have h1 : s0.views.any (fun v =>
      v.viewerId == A && v.targetId == B) = false := by
    rw [List.any_eq_false]
    intro v hvm hc
    simp only [Bool.and_eq_true, beq_iff_eq] at hc
    exact hv v hvm (Or.inl ⟨by tauto, by tauto⟩)
  have haBA : s0.views.any (fun v =>
      v.viewerId == B && v.targetId == A) = false := by
    rw [List.any_eq_false]
    intro v hvm hc
    simp only [Bool.and_eq_true, beq_iff_eq] at hc
    exact hv v hvm (Or.inr ⟨by tauto, by tauto⟩)
  have h2 : s0.views.find? (fun v =>
      v.viewerId == B && v.targetId == A && v.liked) = none := by
    rw [List.find?_eq_none]
    intro v hvm hc
    simp only [Bool.and_eq_true, beq_iff_eq] at hc
    exact hv v hvm (Or.inr ⟨by tauto, by tauto⟩)
  have hfABnone : s0.views.find? (fun v =>
      v.viewerId == A && v.targetId == B && v.liked) = none := by
    rw [List.find?_eq_none]
    intro v hvm hc
    simp only [Bool.and_eq_true, beq_iff_eq] at hc
    exact hv v hvm (Or.inl ⟨by tauto, by tauto⟩)
  have hins1 : viewInsertResult A B s0 = .ok := by
    simp [viewInsertResult, h1]
  have hstep1 : viewOp A B true s0 =
      (.resp false true,
        wsSend B .newLike { s0 with views := s0.views ++ [⟨A, B, true⟩] }) := by
    simp [viewOp, hins1, viewOpWith, h2]
  have hS1v : (viewOp A B true s0).2.views = s0.views ++ [⟨A, B, true⟩] := by
    rw [hstep1]; simp
  have hS1m : (viewOp A B true s0).2.«matches» = s0.«matches» := by
    rw [hstep1]; simp
  have h1' : (viewOp A B true s0).2.views.any (fun v =>
      v.viewerId == B && v.targetId == A) = false := by
    rw [hS1v]
    simp only [List.any_append, haBA, Bool.false_or, List.any_cons,
      List.any_nil, Bool.or_false]
    simp [hne]
  have hins2 : viewInsertResult B A (viewOp A B true s0).2 = .ok := by
    simp [viewInsertResult, h1']
  have hfav2 : (viewOp A B true s0).2.views.find? (fun v =>
      v.viewerId == A && v.targetId == B && v.liked)
      = some ⟨A, B, true⟩ := by
    rw [hS1v, List.find?_append, hfABnone]
    simp
  have hout2 : (viewOp B A true (viewOp A B true s0).2).1 = .resp true true := by
    generalize (viewOp A B true s0).2 = S1 at hins2 hfav2 ⊢
    simp [viewOp, hins2, viewOpWith, hfav2]
  have hm2 : (viewOp B A true (viewOp A B true s0).2).2.«matches» =
      s0.«matches» ++ [newMatchRow (getUserIdOrder A B)] := by
    generalize (viewOp A B true s0).2 = S1 at hins2 hfav2 hS1m ⊢
    simp [viewOp, hins2, viewOpWith, hfav2, hS1m]
  have hrow : ((newMatchRow (getUserIdOrder A B)).userId1 == A &&
      (newMatchRow (getUserIdOrder A B)).userId2 == B ||
      ((newMatchRow (getUserIdOrder A B)).userId1 == B &&
      (newMatchRow (getUserIdOrder A B)).userId2 == A)) = true := by
    rcases getUserIdOrder_cases A B with h | h <;> simp [newMatchRow, h]
  refine ⟨by rw [hstep1], ?_, hout2, ?_, getUserIdOrder_lt hAB⟩
  · unfold matchesForPair at hm ⊢
    rw [hS1m, hm]
  · unfold matchesForPair at hm ⊢
    rw [hm2, List.filter_append, hm, List.nil_append]
    simp [hrow]

theorem C1_witness :
    (viewOp "a" "b" true emptyState).1 = .resp false true ∧
    (viewOp "b" "a" true (viewOp "a" "b" true emptyState).2).1 =
      .resp true true ∧
    matchesForPair "a" "b"
      (viewOp "b" "a" true (viewOp "a" "b" true emptyState).2).2 =
      [newMatchRow (getUserIdOrder "a" "b")] := by
  have h := C1_mutual_like_single_match "a" "b" emptyState (by decide)
    (by intro v hvm; simp [emptyState] at hvm) rfl
  exact ⟨h.1, h.2.2.1, h.2.2.2.1⟩

/-! ## Registry helper lemmas -/

theorem wsHas_of_lookup {k : String} {s : ServerState} {e : WsEntry}
    (h : wsLookup k s = some e) : wsHas k s = true := by
  unfold wsLookup at h
  unfold wsHas
  rcases hf : s.wsUsers.find? (fun x => x.1 == k) with _ | x
  · rw [hf] at h; simp at h
  · rw [List.any_eq_true]
    have hp := List.find?_some
      (p := fun (e : String × WsEntry) => e.1 == k) hf
    exact ⟨x, List.mem_of_find?_eq_some hf, hp⟩

@[simp] theorem wsLookup_wsSend (k k2 : String) (v : WsEvent)
    (s : ServerState) : wsLookup k (wsSend k2 v s) = wsLookup k s := by
  unfold wsLookup
  rw [wsSend_wsUsers]

@[simp] theorem wsHas_wsSend (k k2 : String) (v : WsEvent)
    (s : ServerState) : wsHas k (wsSend k2 v s) = wsHas k s := by
  unfold wsHas
  rw [wsSend_wsUsers]

theorem pushIfAbsent_of_has {k : String} {j : PushJob} {s : ServerState}
    (h : wsHas k s = true) : pushIfAbsent k j s = s := by
  unfold pushIfAbsent
  rw [if_pos h]

theorem wsSend_of_has {k : String} {v : WsEvent} {s : ServerState}
    (h : wsHas k s = true) :
    wsSend k v s = { s with sentWs := s.sentWs ++ [(k, v)] } := by
  unfold wsSend
  rw [if_pos h]

/-! ## Claim C7 — focused recipient: live delivery only -/

/-- C7: when the recipient R is connected and its `openChatUserId`
equals the sender S, POST /message delivers the "new-message" event over
R's live connection, enqueues no push job, and does not touch the match
rows (in particular R's read flag is unchanged); the only persisted
mutation is the message row itself (src/index.ts lines 702-750). -/
theorem C7_focused_recipient_live_delivery (S R text : String) (now : Nat)
    (s : ServerState) (e : WsEntry)
    (hconn : wsLookup R s = some e)
    (hfocus : e.openChatUserId = some S) :
    (messageOp S R text now s).sentWs =
      s.sentWs ++ [(R, .newMessage ⟨S, R, text, now⟩)] ∧
    (messageOp S R text now s).pushQueue = s.pushQueue ∧
    (messageOp S R text now s).«matches» = s.«matches» ∧
    (messageOp S R text now s).messages = s.messages ++ [⟨S, R, text, now⟩] := by
  have hhas : wsHas R s = true := wsHas_of_lookup hconn
  have hconn' : wsLookup R
      { s with messages := s.messages ++ [(⟨S, R, text, now⟩ : MessageRow)] }
      = some e := hconn
  have hhas' : wsHas R
      { s with messages := s.messages ++ [(⟨S, R, text, now⟩ : MessageRow)] }
      = true := hhas
  have key : messageOp S R text now s =
      { s with
        messages := s.messages ++ [⟨S, R, text, now⟩],
        sentWs := s.sentWs ++ [(R, .newMessage ⟨S, R, text, now⟩)] } := by
    simp only [messageOp, wsLookup_wsSend, hconn']
    simp only [hfocus, beq_self_eq_true, Bool.not_true]
    rw [if_neg (by simp)]
    unfold pushIfAbsent
    rw [wsHas_wsSend, if_pos hhas']
    unfold wsSend
    rw [if_pos hhas']
  rw [key]
  exact ⟨rfl, rfl, rfl, rfl⟩

theorem C7_witness :
    (messageOp "s" "r" "hello" 1
      { emptyState with
        wsUsers := [("r", ⟨some "s"⟩)],
        «matches» := [⟨"r", "s", true, true, false⟩] }).pushQueue = [] ∧
    (messageOp "s" "r" "hello" 1
      { emptyState with
        wsUsers := [("r", ⟨some "s"⟩)],
        «matches» := [⟨"r", "s", true, true, false⟩] }).«matches» =
      [⟨"r", "s", true, true, false⟩] := by
  have h := C7_focused_recipient_live_delivery "s" "r" "hello" 1
    { emptyState with
      wsUsers := [("r", ⟨some "s"⟩)],
      «matches» := [⟨"r", "s", true, true, false⟩] }
    ⟨some "s"⟩ rfl rfl
  exact ⟨h.2.1, h.2.2.1⟩

/-! ## Claim C6 — connected but unfocused recipient -/

/-- C6 counterexample: recipient "r" is connected with `openChatUserId`
"x" ≠ sender "s"; the handler persists the unread marker on r's side
(read1 flips to false, so the claim's scenario is active), yet the push
queue stays empty — the code enqueues a push job only when the recipient
has no connection at all (src/index.ts line 741), contradicting the
claimed "persists an unread marker AND enqueues a push-notification
job". -/
theorem C6_counterexample :
    (messageOp "s" "r" "hello" 1
      { emptyState with
        wsUsers := [("r", ⟨some "x"⟩)],
        «matches» := [⟨"r", "s", true, true, false⟩] }).pushQueue = [] ∧
    (messageOp "s" "r" "hello" 1
      { emptyState with
        wsUsers := [("r", ⟨some "x"⟩)],
        «matches» := [⟨"r", "s", true, true, false⟩] }).«matches» =
      [⟨"r", "s", false, true, false⟩] := by
  decide

/-- C6 (amended): when the recipient R is connected but its
`openChatUserId` differs from the sender S, POST /message persists the
unread marker on R's side of the canonical Match row (R's read flag set
false on the side matching the canonical pair order) and still delivers
the message over R's live connection, but — unlike the claim — enqueues
NO push-notification job: the push job (with its 100-character preview)
is enqueued only when R has no live connection at all. -/
theorem C6_amended_unfocused_recipient (S R text : String) (now : Nat)
    (s : ServerState) (e : WsEntry)
    (hconn : wsLookup R s = some e)
    (hfocus : e.openChatUserId ≠ some S) :
    (messageOp S R text now s).«matches» = markUnread S R s.«matches» ∧
    (messageOp S R text now s).pushQueue = s.pushQueue ∧
    (messageOp S R text now s).sentWs =
      s.sentWs ++ [(R, .newMessage ⟨S, R, text, now⟩)] ∧
    ∀ r ∈ s.«matches»,
      r.userId1 = (getUserIdOrder S R).userId1 →
      r.userId2 = (getUserIdOrder S R).userId2 →
      r.unmatched = false →
      (if (getUserIdOrder S R).userId1 = R then { r with read1 := false }
       else { r with read2 := false }) ∈ (messageOp S R text now s).«matches» := by
  have hhas : wsHas R s = true := wsHas_of_lookup hconn
  have hconn' : wsLookup R
      { s with messages := s.messages ++ [(⟨S, R, text, now⟩ : MessageRow)] }
      = some e := hconn
  have hhas' : wsHas R
      { s with messages := s.messages ++ [(⟨S, R, text, now⟩ : MessageRow)] }
      = true := hhas
  have hfoc_eq : (e.openChatUserId == some S) = false := by
    simp only [beq_eq_false_iff_ne, ne_eq]
    exact hfocus
  have hmatches : (messageOp S R text now s).«matches» =
      markUnread S R s.«matches» := by
    simp only [messageOp, wsLookup_wsSend, hconn', hfoc_eq, Bool.not_false,
      if_true, pushIfAbsent_matches, wsSend_matches]
  have hpush : (messageOp S R text now s).pushQueue = s.pushQueue := by
    simp only [messageOp, wsLookup_wsSend, hconn', hfoc_eq, Bool.not_false,
      if_true]
    rw [pushIfAbsent_of_has]
    · simp
    · simp only [wsHas, wsSend_wsUsers]
      exact hhas
  have hsent : (messageOp S R text now s).sentWs =
      s.sentWs ++ [(R, .newMessage ⟨S, R, text, now⟩)] := by
    simp only [messageOp, wsLookup_wsSend, hconn', hfoc_eq, Bool.not_false,
      if_true, pushIfAbsent_sentWs]
    rw [wsSend_of_has hhas']
  refine ⟨hmatches, hpush, hsent, ?_⟩
  intro r hr h1 h2 h3
  rw [hmatches]
  unfold markUnread
  refine List.mem_map.mpr ⟨r, hr, ?_⟩
  simp [h1, h2, h3]

theorem C6_witness :
    (messageOp "s" "r" "hi" 2
      { emptyState with
        wsUsers := [("r", ⟨some "t"⟩)],
        «matches» := [⟨"r", "s", true, false, false⟩] }).pushQueue = [] ∧
    (messageOp "s" "r" "hi" 2
      { emptyState with
        wsUsers := [("r", ⟨some "t"⟩)],
        «matches» := [⟨"r", "s", true, false, false⟩] }).«matches» =
      markUnread "s" "r"
        [⟨"r", "s", true, false, false⟩] := by
  have h := C6_amended_unfocused_recipient "s" "r" "hi" 2
    { emptyState with
      wsUsers := [("r", ⟨some "t"⟩)],
      «matches» := [⟨"r", "s", true, false, false⟩] }
    ⟨some "t"⟩ rfl (by decide)
  exact ⟨h.2.1, h.1⟩

/-! ## Claim C9 — read flag on conversation fetch -/

/-- C9 counterexample: the handler parses the cursor with `parseInt` and
guards the read-flag update with `if (!cursor)`, so a fetch that DOES
carry a cursor — the integer 0 — still updates the fetching user's read
flag (the JS number 0 is falsy), contradicting "a fetch with a cursor
leaves both read flags unchanged"; moreover the flag is set to `true`
(the unread state is cleared), not set to false. -/
theorem C9_counterexample :
    (messagesGetOp "a" "b" (some 0)
      { emptyState with
        «matches» := [⟨"a", "b", false, false, false⟩] }).2.«matches» =
      [⟨"a", "b", true, false, false⟩] := by
  decide

/-- C9 (amended): on a fetch whose cursor is falsy (absent, or the value
0 which the code treats as absent), the fetching user's read flag on
the canonical Match row — read1 when they are userId1 of the canonical
pair, else read2 — is set to `true` (clearing the unread marker)
synchronously with the fetch; on a fetch with a truthy (nonzero) cursor
the match rows are untouched (src/index.ts lines 542-557). -/
theorem C9_amended_read_flag_on_fetch (reqUserId userId : String)
    (cursor : Option Nat) (s : ServerState) :
    (cursorTruthy cursor = false →
      (messagesGetOp reqUserId userId cursor s).2.«matches» =
        markRead userId reqUserId s.«matches» ∧
      ∀ r ∈ s.«matches»,
        r.userId1 = (getUserIdOrder userId reqUserId).userId1 →
        r.userId2 = (getUserIdOrder userId reqUserId).userId2 →
        (if (getUserIdOrder userId reqUserId).userId1 = reqUserId
         then { r with read1 := true } else { r with read2 := true })
          ∈ (messagesGetOp reqUserId userId cursor s).2.«matches») ∧
    (cursorTruthy cursor = true →
      (messagesGetOp reqUserId userId cursor s).2.«matches» =
        s.«matches») := by
  constructor
  · intro hc
    have hmx : (messagesGetOp reqUserId userId cursor s).2.«matches» =
        markRead userId reqUserId s.«matches» := by
      simp only [messagesGetOp, hc, Bool.false_eq_true, if_false]
      congr 1
      split <;> rfl
    refine ⟨hmx, ?_⟩
    intro r hr h1 h2
    rw [hmx]
    unfold markRead
    refine List.mem_map.mpr ⟨r, hr, ?_⟩
    simp [h1, h2]
  · intro hc
    simp only [messagesGetOp, hc, if_true]
    split <;> rfl

theorem C9_witness :
    (messagesGetOp "a" "b" none
      { emptyState with
        «matches» := [⟨"a", "b", false, true, false⟩] }).2.«matches» =
      markRead "b" "a" [⟨"a", "b", false, true, false⟩] ∧
    (messagesGetOp "a" "b" (some 7)
      { emptyState with
        «matches» := [⟨"a", "b", false, true, false⟩] }).2.«matches» =
      [⟨"a", "b", false, true, false⟩] :=
  ⟨((C9_amended_read_flag_on_fetch "a" "b" none
      { emptyState with
        «matches» := [⟨"a", "b", false, true, false⟩] }).1 rfl).1,
   (C9_amended_read_flag_on_fetch "a" "b" (some 7)
      { emptyState with
        «matches» := [⟨"a", "b", false, true, false⟩] }).2 rfl⟩

/-! ## Claim C10 — conversation page shape -/

/-- C10 counterexample: with the explicit cursor 0 (falsy in JS), the
`createdAt < cursor` filter is skipped entirely, so the response
contains a message that is NOT strictly older than the cursor
timestamp, contradicting "when a cursor is given, [messages are]
strictly older than the cursor timestamp". -/
theorem C10_counterexample :
    (messagesGetOp "a" "b" (some 0)
      { emptyState with messages := [⟨"a", "b", "hi", 5⟩] }).1.messages =
      [⟨"a", "b", "hi", 5⟩] ∧
    ¬ (5 : Nat) < 0 := by
  constructor
  · decide
  · omega

/-- C10 (amended): for every conversation fetch whose cursor is absent
or a nonzero integer, the response holds at most 20 messages, sorted by
`createdAt` descending, all drawn from the messages exchanged between
the two users and — when the (nonzero) cursor is given — strictly older
than it; `hasMore` is true iff at least 21 qualifying messages exist
(src/index.ts lines 504-541). -/
theorem C10_amended_page_shape (reqUserId userId : String)
    (cursor : Option Nat) (s : ServerState)
    (hc : cursor = none ∨ ∃ c, cursor = some c ∧ c ≠ 0) :
    (messagesGetOp reqUserId userId cursor s).1.messages.length ≤ 20 ∧
    List.Sorted createdAtDesc
      (messagesGetOp reqUserId userId cursor s).1.messages ∧
    (∀ m ∈ (messagesGetOp reqUserId userId cursor s).1.messages,
      betweenPair userId reqUserId m = true ∧
      m ∈ s.messages ∧
      ∀ c, cursor = some c → m.createdAt < c) ∧
    ((messagesGetOp reqUserId userId cursor s).1.hasMore = true ↔
      21 ≤ (s.messages.filter
        (messageFilter userId reqUserId cursor)).length) := by
  have hresp : (messagesGetOp reqUserId userId cursor s).1 =
      { messages := (messagesQuery reqUserId userId cursor s).take 20,
        hasMore := (messagesQuery reqUserId userId cursor s).length == 21 } :=
    rfl
  refine ⟨?_, ?_, ?_, ?_⟩
  · rw [hresp]
    simp only [List.length_take]
    omega
  · rw [hresp]
    unfold messagesQuery
    exact List.Pairwise.sublist (List.take_sublist _ _)
      (List.Pairwise.sublist (List.take_sublist _ _)
        (List.sorted_insertionSort createdAtDesc _))
  · rw [hresp]
    intro m hm
    have hmem : m ∈ s.messages.filter
        (messageFilter userId reqUserId cursor) := by
      have h1 := List.take_subset 20 (messagesQuery reqUserId userId cursor s) hm
      unfold messagesQuery at h1
      have h2 := List.take_subset 21 _ h1
      exact (List.mem_insertionSort createdAtDesc).mp h2
    obtain ⟨hms, hpred⟩ := List.mem_filter.mp hmem
    unfold messageFilter at hpred
    rcases hc with hc | ⟨c, hc, hcz⟩
    · subst hc
      simp only [Bool.and_true] at hpred
      exact ⟨hpred, hms, fun c hcc => by cases hcc⟩
    · subst hc
      have hz : (c == 0) = false := by
        simp only [beq_eq_false_iff_ne, ne_eq]
        exact hcz
      simp only [hz, Bool.false_eq_true, if_false, Bool.and_eq_true,
        decide_eq_true_eq] at hpred
      exact ⟨hpred.1, hms, fun c2 hcc => by
        cases hcc
        exact hpred.2⟩
  · rw [hresp]
    show ((messagesQuery reqUserId userId cursor s).length == 21) = true ↔ _
    unfold messagesQuery
    rw [beq_iff_eq, List.length_take, List.length_insertionSort]
    omega

theorem C10_witness :
    (messagesGetOp "a" "b" (some 7)
      { emptyState with
        messages := [⟨"a", "b", "old", 3⟩, ⟨"b", "a", "new", 9⟩,
          ⟨"a", "c", "other", 2⟩] }).1.messages = [⟨"a", "b", "old", 3⟩] ∧
    (messagesGetOp "a" "b" (some 7)
      { emptyState with
        messages := [⟨"a", "b", "old", 3⟩, ⟨"b", "a", "new", 9⟩,
          ⟨"a", "c", "other", 2⟩] }).1.hasMore = false := by
  have h := C10_amended_page_shape "a" "b" (some 7)
    { emptyState with
      messages := [⟨"a", "b", "old", 3⟩, ⟨"b", "a", "new", 9⟩,
        ⟨"a", "c", "other", 2⟩] }
    (Or.inr ⟨7, rfl, by decide⟩)
  refine ⟨by decide, ?_⟩
  rcases hh : (messagesGetOp "a" "b" (some 7)
      { emptyState with
        messages := [⟨"a", "b", "old", 3⟩, ⟨"b", "a", "new", 9⟩,
          ⟨"a", "c", "other", 2⟩] }).1.hasMore with _ | _
  · rfl
  · exfalso
    have h21 := (h.2.2.2).mp hh
    revert h21
    decide

/-! ## Claim C3 — match/view invariant -/

theorem likedViewIn_mono {a b : String} {l l2 : List ViewRow}
    (h : likedViewIn a b l = true) : likedViewIn a b (l ++ l2) = true := by
  unfold likedViewIn at h ⊢
  simp [List.any_append, h]

/-- The three outcomes of a POST /view on the store: duplicate (state
untouched), plain insert (no reciprocal liked view), and match-forming
insert. -/
theorem viewOp_trichotomy (r u : String) (lkd : Bool) (s : ServerState) :
    (viewOp r u lkd s).2 = s ∨
    (s.views.any (fun v => v.viewerId == r && v.targetId == u) = false ∧
      (viewOp r u lkd s).2.«matches» = s.«matches» ∧
      (viewOp r u lkd s).2.views = s.views ++ [⟨r, u, lkd⟩] ∧
      (lkd = true → likedViewIn u r s.views = false)) ∨
    (s.views.any (fun v => v.viewerId == r && v.targetId == u) = false ∧
      lkd = true ∧
      likedViewIn u r s.views = true ∧
      (viewOp r u lkd s).2.«matches» =
        s.«matches» ++ [newMatchRow (getUserIdOrder u r)] ∧
      (viewOp r u lkd s).2.views = s.views ++ [⟨r, u, true⟩]) := by
  have hdupmsg : includesDuplicateKey pgDuplicateKeyMsg = true := by decide
  rcases hdup : s.views.any (fun v => v.viewerId == r && v.targetId == u)
    with _ | _
  · -- insert succeeds
    have hins : viewInsertResult r u s = .ok := by
      simp [viewInsertResult, hdup]
    cases lkd with
    | false =>
      refine Or.inr (Or.inl ⟨rfl, ?_, ?_, by intro h; cases h⟩) <;>
        simp [viewOp, hins, viewOpWith]
    | true =>
      rcases hfav : s.views.find? (fun v =>
          v.viewerId == u && v.targetId == r && v.liked) with _ | w
      · refine Or.inr (Or.inl ⟨rfl, ?_, ?_, ?_⟩)
        · simp [viewOp, hins, viewOpWith, hfav]
        · simp [viewOp, hins, viewOpWith, hfav]
        · intro _
          unfold likedViewIn
          rw [List.any_eq_false]
          exact List.find?_eq_none.mp hfav
      · refine Or.inr (Or.inr ⟨rfl, rfl, ?_, ?_, ?_⟩)
        · unfold likedViewIn
          rw [List.any_eq_true]
          have hp := List.find?_some
            (p := fun (v : ViewRow) =>
              v.viewerId == u && v.targetId == r && v.liked) hfav
          exact ⟨w, List.mem_of_find?_eq_some hfav, hp⟩
        · simp [viewOp, hins, viewOpWith, hfav]
        · simp [viewOp, hins, viewOpWith, hfav]
  · -- duplicate key
    have hins : viewInsertResult r u s = .dbError pgDuplicateKeyMsg := by
      simp [viewInsertResult, hdup]
    exact Or.inl (by simp [viewOp, hins, viewOpWith, hdupmsg])

theorem unmatchOp_views (r u : String) (s : ServerState) :
    (unmatchOp r u s).views = s.views := by
  simp [unmatchOp]

theorem unmatchOp_matches (r u : String) (s : ServerState) :
    (unmatchOp r u s).«matches» = s.«matches».filter (fun m =>
      !(m.userId1 == (getUserIdOrder r u).userId1 &&
        m.userId2 == (getUserIdOrder r u).userId2)) := by
  simp [unmatchOp]

theorem messageOp_views (r u t : String) (n : Nat) (s : ServerState) :
    (messageOp r u t n s).views = s.views := by
  simp only [messageOp, pushIfAbsent_views]
  split <;> simp

theorem messageOp_matches (r u t : String) (n : Nat) (s : ServerState) :
    (messageOp r u t n s).«matches» = markUnread r u s.«matches» ∨
    (messageOp r u t n s).«matches» = s.«matches» := by
  simp only [messageOp, pushIfAbsent_matches]
  split
  · left; simp
  · right; simp

theorem messagesGetOp_views (r u : String) (c : Option Nat)
    (s : ServerState) : (messagesGetOp r u c s).2.views = s.views := by
  simp only [messagesGetOp]
  split
  · split <;> rfl
  · split <;> rfl

theorem messagesGetOp_matches (r u : String) (c : Option Nat)
    (s : ServerState) :
    (messagesGetOp r u c s).2.«matches» = s.«matches» ∨
    (messagesGetOp r u c s).2.«matches» = markRead u r s.«matches» := by
  simp only [messagesGetOp]
  split
  · left; split <;> rfl
  · right
    show markRead u r _ = _
    congr 1
    split <;> rfl

theorem ids_of_mem_markUnread {a b : String} {l : List MatchRow}
    {m' : MatchRow} (h : m' ∈ markUnread a b l) :
    ∃ m ∈ l, m'.userId1 = m.userId1 ∧ m'.userId2 = m.userId2 := by
  unfold markUnread at h
  obtain ⟨m, hm, hfm⟩ := List.mem_map.mp h
  refine ⟨m, hm, ?_⟩
  cases hfm
  constructor
  · split
    · split <;> rfl
    · rfl
  · split
    · split <;> rfl
    · rfl

theorem ids_of_mem_markRead {a b : String} {l : List MatchRow}
    {m' : MatchRow} (h : m' ∈ markRead a b l) :
    ∃ m ∈ l, m'.userId1 = m.userId1 ∧ m'.userId2 = m.userId2 := by
  unfold markRead at h
  obtain ⟨m, hm, hfm⟩ := List.mem_map.mp h
  refine ⟨m, hm, ?_⟩
  cases hfm
  constructor
  · split
    · split <;> rfl
    · rfl
  · split
    · split <;> rfl
    · rfl

theorem step_preserves_matchViewInv (s : ServerState) (op : Op)
    (h : MatchViewInv s) : MatchViewInv (step s op) := by
  cases op with
  | view r u lkd =>
    show MatchViewInv (viewOp r u lkd s).2
    rcases viewOp_trichotomy r u lkd s with heq | ⟨_, hm, hv, _⟩ |
      ⟨_, hlkd, hfav, hm, hv⟩
    · rw [heq]; exact h
    · intro m hmem
      rw [hm] at hmem
      unfold hasLikedView
      rw [hv]
      obtain ⟨h1, h2⟩ := h m hmem
      exact ⟨likedViewIn_mono h1, likedViewIn_mono h2⟩
    · intro m hmem
      rw [hm] at hmem
      unfold hasLikedView
      rw [hv]
      rcases List.mem_append.mp hmem with hold | hnew
      · obtain ⟨h1, h2⟩ := h m hold
        exact ⟨likedViewIn_mono h1, likedViewIn_mono h2⟩
      · have hmeq : m = newMatchRow (getUserIdOrder u r) := by
          simpa using hnew
        subst hmeq
        have hsingle : likedViewIn r u (s.views ++ [⟨r, u, true⟩]) = true := by
          unfold likedViewIn
          simp [List.any_append]
        have hforward : likedViewIn u r (s.views ++ [⟨r, u, true⟩]) = true :=
          likedViewIn_mono hfav
        rcases getUserIdOrder_cases u r with hid | hid
        · rw [hid]
          exact ⟨hforward, hsingle⟩
        · rw [hid]
          exact ⟨hsingle, hforward⟩
  | unmatch r u =>
    show MatchViewInv (unmatchOp r u s)
    intro m hmem
    unfold hasLikedView
    rw [unmatchOp_views]
    rw [unmatchOp_matches] at hmem
    obtain ⟨hm0, -⟩ := List.mem_filter.mp hmem
    exact h m hm0
  | report r u k =>
    cases k with
    | unmatch =>
      show MatchViewInv (unmatchOp r u s)
      intro m hmem
      unfold hasLikedView
      rw [unmatchOp_views]
      rw [unmatchOp_matches] at hmem
      obtain ⟨hm0, -⟩ := List.mem_filter.mp hmem
      exact h m hm0
    | reject =>
      show MatchViewInv (reportOp r u .reject s)
      rcases hir : viewInsertResult r u s with _ | msg
      · intro m hmem
        simp only [reportOp, hir] at hmem ⊢
        unfold hasLikedView
        obtain ⟨h1, h2⟩ := h m hmem
        exact ⟨likedViewIn_mono h1, likedViewIn_mono h2⟩
      · intro m hmem
        simp only [reportOp, hir] at hmem ⊢
        exact h m hmem
  | message r u t n =>
    show MatchViewInv (messageOp r u t n s)
    intro m hmem
    unfold hasLikedView
    rw [messageOp_views]
    rcases messageOp_matches r u t n s with hm | hm <;> rw [hm] at hmem
    · obtain ⟨m0, hm0, hid1, hid2⟩ := ids_of_mem_markUnread hmem
      rw [hid1, hid2]
      exact h m0 hm0
    · exact h m hmem
  | getMessages r u c =>
    show MatchViewInv (messagesGetOp r u c s).2
    intro m hmem
    unfold hasLikedView
    rw [messagesGetOp_views]
    rcases messagesGetOp_matches r u c s with hm | hm <;> rw [hm] at hmem
    · exact h m hmem
    · obtain ⟨m0, hm0, hid1, hid2⟩ := ids_of_mem_markRead hmem
      rw [hid1, hid2]
      exact h m0 hm0
  | connect uid =>
    have hv : (wssConnection uid s).views = s.views := by
      unfold wssConnection wsRegister
      split <;> rfl
    have hm : (wssConnection uid s).«matches» = s.«matches» := by
      unfold wssConnection wsRegister
      split <;> rfl
    show MatchViewInv (wssConnection uid s)
    intro m hmem
    unfold hasLikedView
    rw [hv]
    rw [hm] at hmem
    exact h m hmem
  | messageOpen uid peer =>
    have hv : (wsMessageOpen uid peer s).views = s.views := by
      unfold wsMessageOpen
      split <;> rfl
    have hm : (wsMessageOpen uid peer s).«matches» = s.«matches» := by
      unfold wsMessageOpen
      split <;> rfl
    show MatchViewInv (wsMessageOpen uid peer s)
    intro m hmem
    unfold hasLikedView
    rw [hv]
    rw [hm] at hmem
    exact h m hmem
  | disconnect uid =>
    intro m hmem
    exact h m hmem

set_option maxHeartbeats 1000000 in
theorem viewOp_preserves_iffInv (r u : String) (lkd : Bool)
    (s : ServerState) (h : IffInv s) : IffInv (viewOp r u lkd s).2 := by
  rcases viewOp_trichotomy r u lkd s with heq | ⟨hdup, hm, hv, hnofav⟩ |
      ⟨hdup, hlkd, hfav, hm, hv⟩
  · rw [heq]; exact h
  · -- plain insert, no reciprocal liked view
    cases lkd with
    | false =>
      intro A B hAB
      have hold := h A B hAB
      unfold matchExists hasLikedView likedViewIn at hold ⊢
      rw [hm, hv]
      simp only [List.any_append, List.any_cons, List.any_nil, Bool.or_false,
        Bool.or_eq_true, Bool.and_eq_true, beq_iff_eq, Bool.false_eq_true,
        and_false, or_false] at hold ⊢
      exact hold
    | true =>
      have hnf := hnofav rfl
      unfold likedViewIn at hnf
      intro A B hAB
      have hold := h A B hAB
      unfold matchExists hasLikedView likedViewIn at hold ⊢
      rw [hm, hv]
      simp only [List.any_append, List.any_cons, List.any_nil, Bool.or_false,
        Bool.or_eq_true, Bool.and_eq_true, beq_iff_eq, Bool.and_true,
        and_true] at hold ⊢
      by_cases h1 : r = A ∧ u = B
      · obtain ⟨e1, e2⟩ := h1
        subst e1
        subst e2
        revert hold hnf
        generalize (s.«matches».any fun m =>
          m.userId1 == r && m.userId2 == u ||
          m.userId1 == u && m.userId2 == r) = M
        generalize (s.views.any fun v =>
          v.viewerId == r && v.targetId == u && v.liked) = X
        generalize (s.views.any fun v =>
          v.viewerId == u && v.targetId == r && v.liked) = Y
        intro hnf hold
        have hnf2 : ¬ (Y = true) := by simp [hnf]
        tauto
      · by_cases h2 : r = B ∧ u = A
        · obtain ⟨e1, e2⟩ := h2
          subst e1
          subst e2
          revert hold hnf
          generalize (s.«matches».any fun m =>
            m.userId1 == u && m.userId2 == r ||
            m.userId1 == r && m.userId2 == u) = M
          generalize (s.views.any fun v =>
            v.viewerId == u && v.targetId == r && v.liked) = X
          generalize (s.views.any fun v =>
            v.viewerId == r && v.targetId == u && v.liked) = Y
          intro hnf hold
          have hnf2 : ¬ (X = true) := by simp [hnf]
          tauto
        · revert hold
          generalize (s.«matches».any fun m =>
            m.userId1 == A && m.userId2 == B ||
            m.userId1 == B && m.userId2 == A) = M
          generalize (s.views.any fun v =>
            v.viewerId == A && v.targetId == B && v.liked) = X
          generalize (s.views.any fun v =>
            v.viewerId == B && v.targetId == A && v.liked) = Y
          intro hold
          tauto
  · -- match-forming insert
    have hru : r ≠ u := by
      intro he
      subst he
      unfold likedViewIn at hfav
      rw [List.any_eq_true] at hfav
      obtain ⟨v, hvm, hvp⟩ := hfav
      rw [List.any_eq_false] at hdup
      apply hdup v hvm
      simp only [Bool.and_eq_true] at hvp ⊢
      exact ⟨by tauto, by tauto⟩
    have hfav' := hfav
    unfold likedViewIn at hfav'
    intro A B hAB
    have hold := h A B hAB
    unfold matchExists hasLikedView likedViewIn at hold ⊢
    rw [hm, hv]
    rcases getUserIdOrder_cases u r with hid | hid <;> rw [hid] <;>
      simp only [newMatchRow, List.any_append, List.any_cons, List.any_nil,
        Bool.or_false, Bool.or_eq_true, Bool.and_eq_true, beq_iff_eq,
        Bool.and_true, and_true] at hold ⊢
    · by_cases h1 : r = A ∧ u = B
      · obtain ⟨e1, e2⟩ := h1
        subst e1
        subst e2
        revert hold hfav'
        generalize (s.«matches».any fun m =>
          m.userId1 == r && m.userId2 == u ||
          m.userId1 == u && m.userId2 == r) = M
        generalize (s.views.any fun v =>
          v.viewerId == r && v.targetId == u && v.liked) = X
        generalize (s.views.any fun v =>
          v.viewerId == u && v.targetId == r && v.liked) = Y
        intro hfavT hold
        tauto
      · by_cases h2 : r = B ∧ u = A
        · obtain ⟨e1, e2⟩ := h2
          subst e1
          subst e2
          revert hold hfav'
          generalize (s.«matches».any fun m =>
            m.userId1 == u && m.userId2 == r ||
            m.userId1 == r && m.userId2 == u) = M
          generalize (s.views.any fun v =>
            v.viewerId == u && v.targetId == r && v.liked) = X
          generalize (s.views.any fun v =>
            v.viewerId == r && v.targetId == u && v.liked) = Y
          intro hfavT hold
          tauto
        · revert hold hfav'
          generalize (s.«matches».any fun m =>
            m.userId1 == A && m.userId2 == B ||
            m.userId1 == B && m.userId2 == A) = M
          generalize (s.views.any fun v =>
            v.viewerId == A && v.targetId == B && v.liked) = X
          generalize (s.views.any fun v =>
            v.viewerId == B && v.targetId == A && v.liked) = Y
          generalize (s.views.any fun v =>
            v.viewerId == u && v.targetId == r && v.liked) = Z
          intro hfavT hold
          tauto
    · by_cases h1 : r = A ∧ u = B
      · obtain ⟨e1, e2⟩ := h1
        subst e1
        subst e2
        revert hold hfav'
        generalize (s.«matches».any fun m =>
          m.userId1 == r && m.userId2 == u ||
          m.userId1 == u && m.userId2 == r) = M
        generalize (s.views.any fun v =>
          v.viewerId == r && v.targetId == u && v.liked) = X
        generalize (s.views.any fun v =>
          v.viewerId == u && v.targetId == r && v.liked) = Y
        intro hfavT hold
        tauto
      · by_cases h2 : r = B ∧ u = A
        · obtain ⟨e1, e2⟩ := h2
          subst e1
          subst e2
          revert hold hfav'
          generalize (s.«matches».any fun m =>
            m.userId1 == u && m.userId2 == r ||
            m.userId1 == r && m.userId2 == u) = M
          generalize (s.views.any fun v =>
            v.viewerId == u && v.targetId == r && v.liked) = X
          generalize (s.views.any fun v =>
            v.viewerId == r && v.targetId == u && v.liked) = Y
          intro hfavT hold
          tauto
        · revert hold hfav'
          generalize (s.«matches».any fun m =>
            m.userId1 == A && m.userId2 == B ||
            m.userId1 == B && m.userId2 == A) = M
          generalize (s.views.any fun v =>
            v.viewerId == A && v.targetId == B && v.liked) = X
          generalize (s.views.any fun v =>
            v.viewerId == B && v.targetId == A && v.liked) = Y
          generalize (s.views.any fun v =>
            v.viewerId == u && v.targetId == r && v.liked) = Z
          intro hfavT hold
          tauto

/-- C3 counterexample: "a" likes "b", "b" likes "a" (a Match forms),
then "a" unmatches.  POST /unmatch deletes the Match row but neither
View row, so both `View(a→b, liked)` and `View(b→a, liked)` exist while
no Match row does — the claimed biconditional fails at this reachable
state. -/
theorem C3_counterexample :
    hasLikedView "a" "b" (run emptyState
      [.view "a" "b" true, .view "b" "a" true, .unmatch "a" "b"]) = true ∧
    hasLikedView "b" "a" (run emptyState
      [.view "a" "b" true, .view "b" "a" true, .unmatch "a" "b"]) = true ∧
    matchExists "a" "b" (run emptyState
      [.view "a" "b" true, .view "b" "a" true, .unmatch "a" "b"]) = false := by
  decide

/-- C3 (amended): (i) in every reachable state a Match row exists only
if both `View(A→B, liked)` and `View(B→A, liked)` exist — match
formation requires the reciprocal liked view and views are never
deleted; (ii) the full biconditional holds for states reachable through
/view actions alone, for any two distinct users: it is /unmatch (and
/report-unmatch), which deletes the Match row but not the Views, that
breaks the "if" direction. -/
theorem C3_amended_match_view_invariant :
    (∀ ops : List Op, MatchViewInv (run emptyState ops)) ∧
    (∀ acts : List (String × String × Bool), ∀ A B : String, A ≠ B →
      (matchExists A B (runViews emptyState acts) = true ↔
        hasLikedView A B (runViews emptyState acts) = true ∧
        hasLikedView B A (runViews emptyState acts) = true)) := by
  constructor
  · intro ops
    suffices hgen : ∀ s, MatchViewInv s → MatchViewInv (run s ops) by
      refine hgen emptyState ?_
      intro m hm
      cases hm
    induction ops with
    | nil => intro s hs; exact hs
    | cons op ops ih =>
      intro s hs
      exact ih _ (step_preserves_matchViewInv s op hs)
  · intro acts
    suffices hgen : ∀ s, IffInv s → IffInv (runViews s acts) by
      refine hgen emptyState ?_
      intro A B hAB
      simp [matchExists, hasLikedView, likedViewIn, emptyState]
    induction acts with
    | nil => intro s hs; exact hs
    | cons a acts ih =>
      intro s hs
      exact ih _ (viewOp_preserves_iffInv a.1 a.2.1 a.2.2 s hs)

theorem C3_witness :
    matchExists "a" "b"
      (runViews emptyState [("a", "b", true), ("b", "a", true)]) = true :=
  (C3_amended_match_view_invariant.2 [("a", "b", true), ("b", "a", true)]
    "a" "b" (by decide)).mpr ⟨by decide, by decide⟩
